import Mathlib

/-!
Shallow embedding of the jobs-cli data-acquisition pipeline
(src/utils/parser.py, src/main.py, src/scrapers/zhaopin.py,
src/scrapers/linkedin.py, src/client/mcp_client.py, src/cache/database.py)
together with theorems settling the specification claims.

Text is modelled as `List Char` / `String`; the Python regular expressions
used by the code are small enough that each one is embedded as a dedicated
deterministic scanner (leftmost match, maximal munch where the pattern makes
backtracking impossible). Python `float` arithmetic on the short decimal
strings the patterns capture is modelled exactly with rational/natural
arithmetic; integer truncation `int(...)` of a non-negative value is `Nat`
floor. Time stamps are rationals counting seconds.
-/

namespace JobsCli

/-! ### Character and string helpers (Python `str` semantics on ASCII input) -/

/-- Python `\s` on the ASCII range: space, tab, newline, carriage return,
vertical tab, form feed. -/
def pySpace (c : Char) : Bool :=
  c = ' ' || c = '\t' || c = '\n' || c = '\x0d' || c = '\x0b' || c = '\x0c'

/-- ASCII lower-casing, as Python `str.lower` acts on the ASCII inputs the
parsers handle. -/
def lowerChar (c : Char) : Char :=
  if 'A' ≤ c && c ≤ 'Z' then Char.ofNat (c.toNat + 32) else c

/-- Python `str.lower` (ASCII). -/
def lowerString (s : String) : String :=
  String.mk (s.toList.map lowerChar)

/-- List-of-characters prefix test. -/
def isPrefixL : List Char → List Char → Bool
  | [], _ => true
  | _ :: _, [] => false
  | a :: as, b :: bs => a == b && isPrefixL as bs

/-- Python substring test `needle in hay` on character lists. -/
def containsSub (needle : List Char) : List Char → Bool
  | [] => needle.isEmpty
  | hay@(_ :: t) => isPrefixL needle hay || containsSub needle t

/-- Python `str.strip` (ASCII whitespace). -/
def pyStrip (s : String) : String :=
  String.mk (((s.toList.dropWhile pySpace).reverse.dropWhile pySpace).reverse)

def isDigitC (c : Char) : Bool := '0' ≤ c && c ≤ '9'

def digitVal (c : Char) : Nat := c.toNat - 48

/-- Numeric value of a digit string, as Python `int(...)` reads it. -/
def natOfDigits (ds : List Char) : Nat :=
  ds.foldl (fun n c => 10 * n + digitVal c) 0

def digitChar (d : Nat) : Char := Char.ofNat (48 + d)

/-- Decimal rendering of a natural number (the model of Python `str(int)` /
f-string formatting of a non-negative integer). Structural on a fuel
argument that always suffices. -/
def natReprAux : Nat → Nat → List Char
  | 0, _ => []
  | fuel + 1, n =>
    if n < 10 then [digitChar n]
    else natReprAux fuel (n / 10) ++ [digitChar (n % 10)]

def natRepr (n : Nat) : List Char := natReprAux (n + 1) n

/-! ### Embedded regular-expression scanners

Each Python pattern used by `src/utils/parser.py` and
`src/scrapers/zhaopin.py` is embedded as a scanner that returns the same
groups as `re.search` (leftmost match).  For all of these patterns greedy
maximal munch is equivalent to the backtracking semantics, because no
character can both extend a `\d+`/`\s*` run and begin the next element of
the pattern. -/

/-- Separator class `[-~至到]` used by the salary patterns. -/
def salSeps : List Char := ['-', '~', '至', '到']

/-- Separator class `[-~to]` used by the experience patterns. -/
def expSeps : List Char := ['-', '~', 't', 'o']

/-- Character class `[万w]` under `re.IGNORECASE`. -/
def wanChars : List Char := ['万', 'w', 'W']

/-- Character class `[kK]`. -/
def kChars : List Char := ['k', 'K']

/-- Scan `\d+(?:\.\d+)?` at the head of the input: returns the integer-part
digits, the fractional digits (empty when absent) and the rest. -/
def scanNum (l : List Char) : Option (List Char × List Char × List Char) :=
  let d := l.takeWhile isDigitC
  if d.isEmpty then none
  else
    let r := l.dropWhile isDigitC
    match r with
    | '.' :: r2 =>
      let f := r2.takeWhile isDigitC
      if f.isEmpty then some (d, [], r)
      else some (d, f, r2.dropWhile isDigitC)
    | _ => some (d, [], r)

/-- The text a `\d+(?:\.\d+)?` group captured. -/
def numCapStr (d f : List Char) : List Char :=
  d ++ (if f.isEmpty then [] else '.' :: f)

/-- Model of Python `int(float(g) * 10)` for a captured number `g` with
integer digits `d` and fractional digits `f` (exact arithmetic; the values
produced by these parsers are small enough that binary floating point
agrees). -/
def times10Floor (d f : List Char) : Nat :=
  10 * natOfDigits d + (10 * natOfDigits f) / 10 ^ f.length

/-- Match `(\d+)\s*[seps]\s*(\d+)` at the head of the input. -/
def matchNumSepNum (seps : List Char) (l : List Char) : Option (Nat × Nat) :=
  let d1 := l.takeWhile isDigitC
  if d1.isEmpty then none
  else
    match (l.dropWhile isDigitC).dropWhile pySpace with
    | [] => none
    | c :: r2 =>
      if seps.contains c then
        let d2 := (r2.dropWhile pySpace).takeWhile isDigitC
        if d2.isEmpty then none else some (natOfDigits d1, natOfDigits d2)
      else none

/-- `re.search` for `(\d+)\s*[seps]\s*(\d+)`. -/
def searchNumSepNum (seps : List Char) : List Char → Option (Nat × Nat)
  | [] => none
  | l@(_ :: t) =>
    match matchNumSepNum seps l with
    | some r => some r
    | none => searchNumSepNum seps t

/-- Match `(\d+)\s*\+` at the head of the input. -/
def matchNumPlus (l : List Char) : Option Nat :=
  let d1 := l.takeWhile isDigitC
  if d1.isEmpty then none
  else
    match (l.dropWhile isDigitC).dropWhile pySpace with
    | '+' :: _ => some (natOfDigits d1)
    | _ => none

/-- `re.search` for `(\d+)\s*\+`. -/
def searchNumPlus : List Char → Option Nat
  | [] => none
  | l@(_ :: t) =>
    match matchNumPlus l with
    | some r => some r
    | none => searchNumPlus t

/-- `re.search` for `(\d+)`: the first digit run. -/
def searchNum : List Char → Option Nat
  | [] => none
  | l@(c :: t) =>
    if isDigitC c then some (natOfDigits (l.takeWhile isDigitC)) else searchNum t

/-! ### `parse_experience_years` (src/utils/parser.py, lines 250-281) -/

/-- `parse_experience_years(exp_str)`: parse an experience string into
`(min, max)` years, `max = none` for the `"5+"` form. -/
def parse_experience_years (exp_str : Option String) : Option (Nat × Option Nat) :=
  match exp_str with
  | none => none
  | some s =>
    if s = "" then none
    else
      let l := s.toList
      if containsSub "entry".toList (l.map lowerChar) || s = "0" then some (0, some 0)
      else
        match searchNumSepNum expSeps l with
        | some (a, b) => some (a, some b)
        | none =>
          match searchNumPlus l with
          | some a => some (a, none)
          | none =>
            match searchNum l with
            | some a => some (a, some a)
            | none => none

/-! ### `parse_salary_min` (src/utils/parser.py, lines 225-247) -/

/-- Match `(\d+(?:\.\d+)?)\s*[kK]?\s*[-~至到]` at the head of the input;
`int(float(g))` of the captured group truncates to its integer part. -/
def matchSalMin (l : List Char) : Option Nat :=
  match scanNum l with
  | none => none
  | some (d1, _, r1) =>
    let r2 := r1.dropWhile pySpace
    let r3 := match r2 with
      | c :: rest => if kChars.contains c then rest else r2
      | [] => r2
    match r3.dropWhile pySpace with
    | c :: _ => if salSeps.contains c then some (natOfDigits d1) else none
    | [] => none

/-- `re.search` for the `matchSalMin` pattern. -/
def searchSalMin : List Char → Option Nat
  | [] => none
  | l@(_ :: t) =>
    match matchSalMin l with
    | some r => some r
    | none => searchSalMin t

/-- `parse_salary_min(salary_range)`: minimum salary in k, or `none`. -/
def parse_salary_min (salary_range : Option String) : Option Nat :=
  match salary_range with
  | none => none
  | some s =>
    if s = "" then none
    else
      let l := s.toList
      match searchSalMin l with
      | some n => some n
      | none =>
        match l with
        | c :: _ => if isDigitC c then some (natOfDigits (l.takeWhile isDigitC)) else none
        | [] => none

/-! ### Data model (src/models.py) -/

/-- `JobPosting` (src/models.py). `posted_date`/`fetched_at` are carried as
opaque strings; they play no part in the verified operations. -/
structure JobPosting where
  id : String := ""
  title : String
  company : String := ""
  location : String := "Beijing"
  salary_range : Option String := none
  experience : Option String := none
  education : Option String := none
  description : Option String := none
  requirements : List String := []
  tags : List String := []
  posted_date : Option String := none
  url : String := ""
  source : String := ""
  fetched_at : String := ""
  is_active : Bool := true
deriving DecidableEq, Repr

/-- `ScraperResult` (src/models.py). -/
structure ScraperResult where
  jobs : List JobPosting := []
  total_count : Nat := 0
  page : Nat := 1
  has_more : Bool := false
  source : String
  error : Option String := none
deriving DecidableEq, Repr

/-! ### `filter_jobs` (src/main.py, lines 36-103) -/

/-- Python truthiness of an `Optional[str]` argument. -/
def pyTruthy : Option String → Bool
  | none => false
  | some s => !(s == "")

/-- The tech-tag predicate of `filter_jobs` (src/main.py, lines 56-63);
`tech_tags` are already stripped and lower-cased. -/
def techPred (tech_tags : List String) (j : JobPosting) : Bool :=
  tech_tags.any fun tag =>
    (j.tags.map lowerString).contains (lowerString tag)
    || tech_tags.any fun tag2 =>
        containsSub tag2.toList (lowerString j.title).toList
        || containsSub tag2.toList (lowerString (j.description.getD "")).toList

/-- The experience predicate of `filter_jobs` (src/main.py, lines 80-100),
given the parsed query `(req_min, req_max)`. -/
def expPred (req_min : Nat) (req_max : Option Nat) (job : JobPosting) : Bool :=
  match parse_experience_years job.experience with
  | some (job_min, job_max) =>
    match req_max with
    | none =>
      match job_max with
      | none => true
      | some jm => req_min ≤ jm
    | some rm =>
      match job_max with
      | none => job_min ≤ rm
      | some jm => job_min ≤ rm && req_min ≤ jm
  | none => true

/-- `filter_jobs(jobs, tech, salary_min, exp)` (src/main.py, lines 36-103). -/
def filter_jobs (jobs : List JobPosting) (tech : Option String := none)
    (salary_min : Option Nat := none) (exp : Option String := none) :
    List JobPosting :=
  let f1 :=
    if pyTruthy tech then
      let tech_tags := ((tech.getD "").splitOn ",").map fun x => lowerString (pyStrip x)
      jobs.filter (techPred tech_tags)
    else jobs
  let f2 :=
    match salary_min with
    | some m =>
      f1.filter fun job =>
        match parse_salary_min job.salary_range with
        | some js => m ≤ js
        | none => false
    | none => f1
  if pyTruthy exp then
    match parse_experience_years exp with
    | some (req_min, req_max) => f2.filter (expPred req_min req_max)
    | none => f2
  else f2

/-! ### Specification-side definition for claim C1 -/

/-- The experience-overlap rule exactly as the specification states it
(spec §4.5): a record with no parsable experience is included; if `reqMax`
is absent include when `jobMax` is absent or `jobMax ≥ reqMin`; else if
`jobMax` is absent include when `reqMax ≥ jobMin`; else include when
`jobMin ≤ reqMax` and `jobMax ≥ reqMin`. -/
def specExpInclude (reqMin : Nat) (reqMax : Option Nat)
    (jobExp : Option (Nat × Option Nat)) : Bool :=
  match jobExp with
  | none => true
  | some (jobMin, jobMax) =>
    match reqMax, jobMax with
    | none, none => true
    | none, some jm => jm ≥ reqMin
    | some rm, none => rm ≥ jobMin
    | some rm, some jm => jobMin ≤ rm && jm ≥ reqMin

/-- Demonstration jobs for the C1 witness (spec §8's worked example):
experiences `"1-4 years"`, `"6-8 years"` and unspecified. -/
def demoJob1 : JobPosting :=
  { title := "Backend Engineer", company := "A", url := "u1",
    source := "zhaopin", experience := some "1-4 years" }

def demoJob2 : JobPosting :=
  { title := "Platform Engineer", company := "B", url := "u2",
    source := "zhaopin", experience := some "6-8 years" }

def demoJob3 : JobPosting :=
  { title := "Data Engineer", company := "C", url := "u3",
    source := "zhaopin", experience := none }

/-! ### `extract_salary` (src/utils/parser.py, lines 7-50) -/

/-- Match the Chinese-format salary pattern
`(\d+(?:\.\d+)?)\s*[万w]\s*[-~至到]\s*(\d+(?:\.\d+)?)\s*[万w]?`
(compiled with `re.IGNORECASE`, hence `W` in the unit class) at the head of
the input, returning the two captured numbers as
(integer digits, fractional digits) pairs. -/
def matchChineseAt (l : List Char) :
    Option ((List Char × List Char) × (List Char × List Char)) :=
  match scanNum l with
  | none => none
  | some (d1, f1, r1) =>
    match r1.dropWhile pySpace with
    | [] => none
    | c :: r3 =>
      if wanChars.contains c then
        match r3.dropWhile pySpace with
        | [] => none
        | c2 :: r5 =>
          if salSeps.contains c2 then
            match scanNum (r5.dropWhile pySpace) with
            | some (d2, f2, _) => some ((d1, f1), (d2, f2))
            | none => none
          else none
      else none

def searchChinese : List Char → Option ((List Char × List Char) × (List Char × List Char))
  | [] => none
  | l@(_ :: t) =>
    match matchChineseAt l with
    | some r => some r
    | none => searchChinese t

/-- Match the k-format salary pattern
`(\d+(?:\.\d+)?)\s*[kK]\s*[-~至到]\s*(\d+(?:\.\d+)?)\s*[kK]?` at the head
of the input. -/
def matchKAt (l : List Char) :
    Option ((List Char × List Char) × (List Char × List Char)) :=
  match scanNum l with
  | none => none
  | some (d1, f1, r1) =>
    match r1.dropWhile pySpace with
    | [] => none
    | c :: r3 =>
      if kChars.contains c then
        match r3.dropWhile pySpace with
        | [] => none
        | c2 :: r5 =>
          if salSeps.contains c2 then
            match scanNum (r5.dropWhile pySpace) with
            | some (d2, f2, _) => some ((d1, f1), (d2, f2))
            | none => none
          else none
      else none

def searchK : List Char → Option ((List Char × List Char) × (List Char × List Char))
  | [] => none
  | l@(_ :: t) =>
    match matchKAt l with
    | some r => some r
    | none => searchK t

/-- Match the plain-number salary pattern `(\d{4,6})\s*[-~至到]\s*(\d{4,6})`
at the head of the input. The first group must exhaust its digit run (the
separator class contains no digit), so its run length must be 4-6; the
second group greedily takes up to 6 digits of a run of at least 4. -/
def matchNumberAt (l : List Char) : Option (Nat × Nat) :=
  let d1 := l.takeWhile isDigitC
  if 4 ≤ d1.length && d1.length ≤ 6 then
    match (l.dropWhile isDigitC).dropWhile pySpace with
    | [] => none
    | c :: r2 =>
      if salSeps.contains c then
        let d2 := (r2.dropWhile pySpace).takeWhile isDigitC
        if 4 ≤ d2.length then some (natOfDigits d1, natOfDigits (d2.take 6))
        else none
      else none
  else none

def searchNumber : List Char → Option (Nat × Nat)
  | [] => none
  | l@(_ :: t) =>
    match matchNumberAt l with
    | some r => some r
    | none => searchNumber t

/-- Output of the Chinese branch: `f"{int(low)}k-{int(high)}k"` with
`low/high = float(group) * 10`. -/
def chineseOut (m : (List Char × List Char) × (List Char × List Char)) : List Char :=
  natRepr (times10Floor m.1.1 m.1.2) ++ ('k' :: '-' :: (natRepr (times10Floor m.2.1 m.2.2) ++ ['k']))

/-- Output of the k branch: `f"{low}k-{high}k"` with `low/high` the captured
group *strings*, copied verbatim. -/
def kOut (m : (List Char × List Char) × (List Char × List Char)) : List Char :=
  numCapStr m.1.1 m.1.2 ++ ('k' :: '-' :: (numCapStr m.2.1 m.2.2 ++ ['k']))

/-- Output of the plain-number branch: `f"{low}k-{high}k"` with
`low/high = int(group) // 1000`. -/
def numberOut (m : Nat × Nat) : List Char :=
  natRepr (m.1 / 1000) ++ ('k' :: '-' :: (natRepr (m.2 / 1000) ++ ['k']))

/-- `extract_salary(text)` (src/utils/parser.py, lines 7-50): the three
patterns are tried in order — Chinese `万` format, k format, plain 4-6
digit numbers — and the first match wins. -/
def extract_salary (text : String) : Option String :=
  if text = "" then none
  else
    match searchChinese text.toList with
    | some m => some (String.mk (chineseOut m))
    | none =>
      match searchK text.toList with
      | some m => some (String.mk (kOut m))
      | none =>
        match searchNumber text.toList with
        | some m => some (String.mk (numberOut m))
        | none => none

/-- The `"<int>k-<int>k"` shape from the specification (§3): one or more
digits, the letter `k`, a dash, one or more digits, the letter `k`, and
nothing else. -/
def isIntK (l : List Char) : Bool :=
  match l.dropWhile isDigitC with
  | c1 :: c2 :: r2 =>
    !(l.takeWhile isDigitC).isEmpty && c1 == 'k' && c2 == '-'
      && !(r2.takeWhile isDigitC).isEmpty && r2.dropWhile isDigitC == ['k']
  | _ => false

/-! ### `extract_tags` (src/utils/parser.py, lines 137-222) -/

/-- The fixed technology-keyword vocabulary, in source order. -/
def tech_keywords : List String :=
  ["Python", "Java", "JavaScript", "TypeScript", "Go", "Golang", "Rust",
   "C++", "C#", "Ruby", "PHP", "Swift", "Kotlin", "React", "Vue", "Angular",
   "Node.js", "Django", "Flask", "FastAPI", "Spring", "SpringBoot", "Docker",
   "Kubernetes", "K8s", "AWS", "Azure", "GCP", "MySQL", "PostgreSQL",
   "MongoDB", "Redis", "Elasticsearch", "Kafka", "RabbitMQ", "Linux", "Git",
   "CI/CD", "DevOps", "Microservices", "REST", "GraphQL", "gRPC",
   "Machine Learning", "ML", "AI", "Deep Learning", "TensorFlow", "PyTorch",
   "NLP", "Computer Vision"]

/-- Synonym canonicalisation applied to a matched keyword. -/
def normalizeTag (tag : String) : String :=
  if lowerString tag = "golang" then "Go"
  else if lowerString tag = "k8s" then "Kubernetes"
  else if lowerString tag = "springboot" then "Spring Boot"
  else tag

/-- Append with the exact-equality membership check the source uses. -/
def addTag (acc : List String) (n : String) : List String :=
  if n ∈ acc then acc else acc ++ [n]

/-- The keyword loop of `extract_tags`, over the lower-cased text. -/
def extractTagsLoop (tl : List Char) : List String → List String → List String
  | [], acc => acc
  | kw :: rest, acc =>
    extractTagsLoop tl rest
      (if containsSub (kw.toList.map lowerChar) tl then addTag acc (normalizeTag kw)
       else acc)

/-- `extract_tags(text)` (src/utils/parser.py, lines 137-222). -/
def extract_tags (text : String) : List String :=
  if text = "" then []
  else extractTagsLoop (text.toList.map lowerChar) tech_keywords []

/-- The image of the keyword vocabulary under canonicalisation; every tag
`extract_tags` emits belongs to this list. -/
def normTags : List String := tech_keywords.map normalizeTag

/-- Boolean check: no two entries of the list are equal case-insensitively. -/
def ciNodup : List String → Bool
  | [] => true
  | a :: t => t.all (fun b => lowerString a != lowerString b) && ciNodup t

/-! ### Zhaopin scraper (src/scrapers/zhaopin.py) -/

/-- Match `(\d+(?:\.\d+)?)-(\d+(?:\.\d+)?)万` at the head of the input
(`ZhaopinScraper._normalize_salary`, lines 264-268). -/
def matchWanAt (l : List Char) :
    Option ((List Char × List Char) × (List Char × List Char)) :=
  match scanNum l with
  | some (d1, f1, r1) =>
    match r1 with
    | '-' :: r2 =>
      match scanNum r2 with
      | some (d2, f2, r3) =>
        match r3 with
        | '万' :: _ => some ((d1, f1), (d2, f2))
        | _ => none
      | none => none
    | _ => none
  | none => none

def searchWan : List Char → Option ((List Char × List Char) × (List Char × List Char))
  | [] => none
  | l@(_ :: t) =>
    match matchWanAt l with
    | some r => some r
    | none => searchWan t

/-- Match `(\d+)-(\d+)元` at the head of the input
(`ZhaopinScraper._normalize_salary`, lines 271-275). -/
def matchYuanAt (l : List Char) : Option (Nat × Nat) :=
  let d1 := l.takeWhile isDigitC
  if d1.isEmpty then none
  else
    match l.dropWhile isDigitC with
    | '-' :: r2 =>
      let d2 := r2.takeWhile isDigitC
      if d2.isEmpty then none
      else
        match r2.dropWhile isDigitC with
        | '元' :: _ => some (natOfDigits d1, natOfDigits d2)
        | _ => none
    | _ => none

def searchYuan : List Char → Option (Nat × Nat)
  | [] => none
  | l@(_ :: t) =>
    match matchYuanAt l with
    | some r => some r
    | none => searchYuan t

/-- Output of the `万` branch of `_normalize_salary`:
`f"{int(low)}k-{int(high)}k"` with `low/high = float(group) * 10`. -/
def wanOut (m : (List Char × List Char) × (List Char × List Char)) : List Char :=
  natRepr (times10Floor m.1.1 m.1.2) ++ ('k' :: '-' :: (natRepr (times10Floor m.2.1 m.2.2) ++ ['k']))

/-- Output of the `元` branch of `_normalize_salary`:
`f"{low}k-{high}k"` with `low/high = int(group) // 1000`. -/
def yuanOut (m : Nat × Nat) : List Char :=
  natRepr (m.1 / 1000) ++ ('k' :: '-' :: (natRepr (m.2 / 1000) ++ ['k']))

/-- `ZhaopinScraper._normalize_salary(salary_str)` (zhaopin.py, lines
254-277): `万` branch, then `元` branch, else the input unchanged. -/
def normalize_salary (salary_str : String) : String :=
  match searchWan salary_str.toList with
  | some m => String.mk (wanOut m)
  | none =>
    match searchYuan salary_str.toList with
    | some m => String.mk (yuanOut m)
    | none => salary_str

/-- The alternatives of the explicit skill-tag pattern in
`ZhaopinScraper._parse_job_block` (zhaopin.py, line 225), in alternation
order. -/
def skillAlts : List String :=
  ["Python", "Java", "C++", "Go", "MySQL", "Redis", "Django", "Flask",
   "Docker", "Kubernetes", "Spring", "PostgreSQL", "MongoDB", "Oracle",
   "JavaScript", "Vue", "React", "Node.js"]

/-- Try the alternation `(Python|Java|...)` case-insensitively at the head
of `l`, requiring the following `(?:\s|$)`; returns the captured text (in
the original casing of `l`) and the rest of the input after the match
(the trailing whitespace, when present, is consumed). -/
def tryAlts (l : List Char) : List String → Option (List Char × List Char)
  | [] => none
  | alt :: rest =>
    let p := alt.toList
    if isPrefixL (p.map lowerChar) (l.map lowerChar) then
      match l.drop p.length with
      | [] => some (l.take p.length, [])
      | c :: r =>
        if pySpace c then some (l.take p.length, r) else tryAlts l rest
    else tryAlts l rest

/-- `re.findall` for `(?:^|\s)(Python|...)(?:\s|$)` with `re.IGNORECASE`:
leftmost non-overlapping matches, scanning resumes after each match.
Structural on a fuel argument that always suffices. -/
def findallSkillAux : Nat → List Char → Bool → List (List Char)
  | 0, _, _ => []
  | _ + 1, [], _ => []
  | fuel + 1, l@(c :: rest), isStart =>
    match (if isStart then tryAlts l skillAlts else none) with
    | some (cap, after) => cap :: findallSkillAux fuel after false
    | none =>
      if pySpace c then
        match tryAlts rest skillAlts with
        | some (cap, after) => cap :: findallSkillAux fuel after false
        | none => findallSkillAux fuel rest false
      else findallSkillAux fuel rest false

def findallSkill (l : List Char) : List (List Char) :=
  findallSkillAux (l.length + 1) l true

/-- The tag assembly of `ZhaopinScraper._parse_job_block` (zhaopin.py,
lines 221-228 and the `tags[:10]` truncation on line 243): `extract_tags`
over the block, then the explicit skill-tag `findall` merged in with a
case-sensitive membership check. -/
def zhaopin_block_tags (block : String) : List String :=
  let tags := extract_tags block
  let skill_tags := findallSkill block.toList
  (skill_tags.foldl
    (fun acc t => if String.mk t ∈ acc then acc else acc ++ [String.mk t]) tags).take 10

/-- The tag assembly of `LinkedInScraper._parse_job_block` (linkedin.py,
lines 245 and 260): `extract_tags` on title and block, truncated to 10. -/
def linkedin_block_tags (title block : String) : List String :=
  (extract_tags (title ++ " " ++ block)).take 10

/-- `ZhaopinScraper.search` (zhaopin.py, lines 58-98). The body of the
`try` block — the remote fetch via `scrape_url` plus
`parse_search_results` — is abstracted as an `Except` argument: `.ok jobs`
when scraping and parsing produced `jobs`, `.error msg` when an exception
with message `msg` was raised. -/
def zhaopin_search (page : Nat) (fetched : Except String (List JobPosting)) :
    ScraperResult :=
  match fetched with
  | .ok jobs =>
    { jobs := jobs, total_count := jobs.length, page := page,
      has_more := decide (15 ≤ jobs.length), source := "zhaopin", error := none }
  | .error e =>
    { jobs := [], total_count := 0, page := page, has_more := false,
      source := "zhaopin", error := some e }

/-! ### LinkedIn scraper (src/scrapers/linkedin.py) -/

/-- The location-pattern table of `LinkedInScraper._filter_by_location`
(linkedin.py, lines 141-150). -/
def location_patterns : List (String × List String) :=
  [("beijing", ["beijing", "北京"]), ("北京", ["beijing", "北京"]),
   ("shanghai", ["shanghai", "上海"]), ("上海", ["shanghai", "上海"]),
   ("shenzhen", ["shenzhen", "深圳"]), ("深圳", ["shenzhen", "深圳"]),
   ("guangzhou", ["guangzhou", "广州"]), ("广州", ["guangzhou", "广州"])]

/-- Python `dict.get(key, default)` over an association list. -/
def dictGet (key : String) (default : List String) :
    List (String × List String) → List String
  | [] => default
  | (k, v) :: rest => if k = key then v else dictGet key default rest

/-- `LinkedInScraper._filter_by_location(jobs, location)` (linkedin.py,
lines 128-160). -/
def linkedin_filter_by_location (jobs : List JobPosting) (location : String) :
    List JobPosting :=
  let location_lower := lowerString location
  let patterns := dictGet location_lower [location_lower] location_patterns
  jobs.filter fun j =>
    patterns.any fun p => containsSub p.toList (lowerString j.location).toList

/-- `LinkedInScraper.search` (linkedin.py, lines 63-109), with the `try`
body's fetch-and-parse abstracted as an `Except` argument as for
`zhaopin_search`. -/
def linkedin_search (page : Nat) (location : String) (filter_location : Bool)
    (fetched : Except String (List JobPosting)) : ScraperResult :=
  match fetched with
  | .ok parsed =>
    let jobs :=
      if filter_location && !(["china", "中国"].contains (lowerString location)) then
        linkedin_filter_by_location parsed location
      else parsed
    { jobs := jobs, total_count := jobs.length, page := page,
      has_more := decide (10 ≤ jobs.length), source := "linkedin", error := none }
  | .error e =>
    { jobs := [], total_count := 0, page := page, has_more := false,
      source := "linkedin", error := some e }

/-! ### Remote tool client (src/client/mcp_client.py, `BrightDataMCP._call_tool`) -/

/-- An exception raised by one attempt of `_call_tool`: the two typed
exceptions the code catches specially, or any other exception with its
message. -/
inductive MCPError where
  | timeoutError (msg : String)
  | connectionError (msg : String)
  | otherError (msg : String)
deriving DecidableEq, Repr

/-- The retry classification of `_call_tool` (mcp_client.py, lines
95-122): `asyncio.TimeoutError` and `ConnectionError` are always
retried; any other exception is retried exactly when its lower-cased
message contains `"timeout"`, `"connection"` or `"network"`. -/
def isRetryable : MCPError → Bool
  | .timeoutError _ => true
  | .connectionError _ => true
  | .otherError msg =>
    let l := (lowerString msg).toList
    containsSub "timeout".toList l || containsSub "connection".toList l
      || containsSub "network".toList l

/-- How one `_call_tool` invocation ends: the tool's text, a non-retryable
exception re-raised immediately, or `MCPConnectionError` carrying the last
underlying error after all attempts failed. -/
inductive CallOutcome where
  | success (text : String)
  | raised (e : MCPError)
  | connectionFailure (lastError : Option MCPError)
deriving DecidableEq, Repr

/-- The outcome of `_call_tool` together with the backoff delays it slept,
in order. -/
structure CallTrace where
  outcome : CallOutcome
  delays : List ℚ
deriving DecidableEq, Repr

/-- The retry loop of `_call_tool` (mcp_client.py, lines 75-127).
`attemptResult i` is what the `i`-th attempt of the `try` body would
produce. `remaining` counts the iterations left of
`for attempt in range(max_retries + 1)`; the loop sleeps
`base_delay * 2 ** attempt` only while `attempt < max_retries`. -/
def call_tool_from (attemptResult : Nat → Except MCPError String)
    (maxRetries : Nat) (baseDelay : ℚ) :
    Nat → Nat → Option MCPError → CallTrace
  | 0, _, lastError => ⟨.connectionFailure lastError, []⟩
  | remaining + 1, attempt, _ =>
    match attemptResult attempt with
    | .ok text => ⟨.success text, []⟩
    | .error e =>
      if isRetryable e then
        let rest := call_tool_from attemptResult maxRetries baseDelay remaining
          (attempt + 1) (some e)
        if attempt < maxRetries then
          ⟨rest.outcome, baseDelay * 2 ^ attempt :: rest.delays⟩
        else ⟨rest.outcome, rest.delays⟩
      else ⟨.raised e, []⟩

/-- `BrightDataMCP._call_tool` with `max_retries` and `base_delay`
(defaults 3 and 1.0): `max_retries + 1` attempts starting at attempt 0. -/
def call_tool (attemptResult : Nat → Except MCPError String)
    (maxRetries : Nat) (baseDelay : ℚ) : CallTrace :=
  call_tool_from attemptResult maxRetries baseDelay (maxRetries + 1) 0 none

/-! ### Persistent store (src/cache/database.py) -/

/-- `Database.increment_request_count(count)` (database.py, lines
292-318), acting on the current month's `request_tracker` row (absent or
holding a count). The SQL is a single conditional upsert
(`INSERT ... ON CONFLICT(month) DO UPDATE SET requests_count =
requests_count + ?`) followed by a `SELECT` of the row; the model returns
the updated row and the selected value. -/
def increment_request_count (row : Option Nat) (count : Nat) : Option Nat × Nat :=
  let newCount :=
    match row with
    | none => count
    | some c => c + count
  (some newCount, newCount)

/-- `N` successive `increment_request_count(1)` calls starting from an
absent month row. -/
def incrIter : Nat → Option Nat
  | 0 => none
  | n + 1 => (increment_request_count (incrIter n) 1).1

/-- The `cache_metadata` table restricted to the refresh markers: a map
from key to timestamp (seconds). -/
def metadata_set (store : String → Option ℚ) (key : String) (t : ℚ) :
    String → Option ℚ :=
  fun k => if k = key then some t else store k

/-- `Database.set_last_refresh(source)` at time `now` (database.py,
lines 371-373). -/
def set_last_refresh (store : String → Option ℚ) (source : String) (now : ℚ) :
    String → Option ℚ :=
  metadata_set store ("last_refresh_" ++ source) now

/-- `Database.get_last_refresh(source)` (database.py, lines 364-369). -/
def get_last_refresh (store : String → Option ℚ) (source : String) : Option ℚ :=
  store ("last_refresh_" ++ source)

/-- A freshly created store: no markers. -/
def empty_store : String → Option ℚ := fun _ => none

/-- `Database.is_cache_stale(source, hours)` (database.py, lines
375-391) at time `now`. `hours = hours or settings.cache_expiry_hours`
replaces a `None` — or, by Python falsiness, zero — argument with the
configured default; the comparison is
`(now - last_refresh).total_seconds() > hours * 3600`. -/
def is_cache_stale (store : String → Option ℚ) (source : String) (now : ℚ)
    (hours : Option ℚ) (defaultHours : ℚ) : Bool :=
  let h :=
    match hours with
    | none => defaultHours
    | some x => if x = 0 then defaultHours else x
  match get_last_refresh store source with
  | none => true
  | some t => decide (now - t > h * 3600)

/-- One row of the `jobs` table (database.py, lines 40-56): `id`, `title`
and `company` are `NOT NULL`, the remaining text columns are nullable,
`requirements`/`tags` hold serialized JSON text, and `is_active` is an
integer defaulting to 1. -/
structure JobRow where
  id : String
  title : String := ""
  company : String := ""
  location : Option String := none
  salary_range : Option String := none
  experience : Option String := none
  education : Option String := none
  description : Option String := none
  requirements : Option String := none
  tags : Option String := none
  posted_date : Option String := none
  url : Option String := none
  source : Option String := none
  fetched_at : Option String := none
  is_active : Int := 1
deriving DecidableEq, Repr

/-- `ORDER BY fetched_at DESC` comparison: larger timestamps first,
`NULL`s last (SQLite places `NULL` first ascending, hence last
descending). -/
def descBefore (a b : JobRow) : Bool :=
  match a.fetched_at, b.fetched_at with
  | some x, some y => y ≤ x
  | some _, none => true
  | none, some _ => false
  | none, none => true

def insertDesc (r : JobRow) : List JobRow → List JobRow
  | [] => [r]
  | x :: xs => if descBefore r x then r :: x :: xs else x :: insertDesc r xs

/-- Stable sort realising `ORDER BY fetched_at DESC`. -/
def sortDesc : List JobRow → List JobRow
  | [] => []
  | x :: xs => insertDesc x (sortDesc xs)

/-- SQL `column = ?` against the (possibly `NULL`) `source` column. -/
def sourceEq (s : String) (r : JobRow) : Bool := r.source == some s

/-- `Database.get_jobs(source, limit, offset)` (database.py, lines
162-192): `SELECT * FROM jobs WHERE [source = ? AND] is_active = 1 ORDER
BY fetched_at DESC LIMIT ? OFFSET ?`; the source condition is added only
when the Python argument is truthy. -/
def get_jobs (db : List JobRow) (source : Option String) (limit offset : Nat) :
    List JobRow :=
  let matched :=
    if pyTruthy source then
      db.filter fun r => sourceEq (source.getD "") r && r.is_active == 1
    else db.filter fun r => r.is_active == 1
  ((sortDesc matched).drop offset).take limit

/-- SQL `column LIKE '%q%'` (case-insensitive on ASCII, as SQLite's LIKE
is); queries containing the LIKE metacharacters `%`/`_` are not modelled. -/
def likeCI (q : String) (hay : String) : Bool :=
  containsSub (lowerString q).toList (lowerString hay).toList

/-- `column LIKE ?` on a nullable column: `NULL` never matches. -/
def optLike (q : String) : Option String → Bool
  | none => false
  | some s => likeCI q s

/-- `Database.search_jobs(query, source, limit)` (database.py, lines
194-235): `WHERE is_active = 1 [AND source = ?] AND (title LIKE ? OR
company LIKE ? OR description LIKE ? OR tags LIKE ?) ORDER BY fetched_at
DESC LIMIT ?`. -/
def search_jobs (db : List JobRow) (q : String) (source : Option String)
    (limit : Nat) : List JobRow :=
  let textMatch := fun (r : JobRow) =>
    likeCI q r.title || likeCI q r.company || optLike q r.description
      || optLike q r.tags
  let matched :=
    if pyTruthy source then
      db.filter fun r =>
        r.is_active == 1 && sourceEq (source.getD "") r && textMatch r
    else db.filter fun r => r.is_active == 1 && textMatch r
  (sortDesc matched).take limit

/-- `Database.get_job_count(source)` (database.py, lines 256-268):
`SELECT COUNT(*) FROM jobs WHERE [source = ? AND] is_active = 1`. -/
def get_job_count (db : List JobRow) (source : Option String) : Nat :=
  if pyTruthy source then
    (db.filter fun r => sourceEq (source.getD "") r && r.is_active == 1).length
  else (db.filter fun r => r.is_active == 1).length

/-- The source predicate shared by the three read operations, used to state
claim C10 uniformly. -/
def rowMatchesSourcePy (source : Option String) (r : JobRow) : Bool :=
  if pyTruthy source then sourceEq (source.getD "") r else true

/-- Concrete attempt sequences for the C7 witness. -/
def allTimeout : Nat → Except MCPError String :=
  fun _ => .error (.timeoutError "t")

def terminalSecond : Nat → Except MCPError String :=
  fun i => if i = 0 then .error (.connectionError "reset")
           else .error (.otherError "bad request")

/-- Concrete rows for the C10 witness. -/
def activeRow : JobRow :=
  { id := "a1", title := "Engineer", company := "X",
    source := some "zhaopin", fetched_at := some "2026-01-01", is_active := 1 }

def inactiveRow : JobRow :=
  { id := "a2", title := "Engineer", company := "Y",
    source := some "zhaopin", fetched_at := some "2026-01-02", is_active := 0 }

def demoDb : List JobRow := [activeRow, inactiveRow]

/-- Ten parsed records for the C5 counterexample. -/
def mkDemoJob (n : Nat) : JobPosting :=
  { title := "T", company := "C", url := String.mk (natRepr n),
    source := "linkedin" }

def tenJobs : List JobPosting := (List.range 10).map mkDemoJob

/-! ## Helper lemmas -/

theorem digitChar_isDigit (d : Nat) (h : d < 10) : isDigitC (digitChar d) = true := by
  interval_cases d <;> decide

theorem natReprAux_digits (fuel : Nat) :
    ∀ n c, c ∈ natReprAux fuel n → isDigitC c = true := by
  induction fuel with
  | zero => intro n c h; simp [natReprAux] at h
  | succ fuel ih =>
    intro n c h
    rw [natReprAux] at h
    by_cases h10 : n < 10
    · rw [if_pos h10] at h
      have := List.mem_singleton.mp h
      subst this
      exact digitChar_isDigit n h10
    · rw [if_neg h10] at h
      rcases List.mem_append.mp h with h1 | h2
      · exact ih _ _ h1
      · have := List.mem_singleton.mp h2
        subst this
        exact digitChar_isDigit _ (Nat.mod_lt _ (by norm_num))

theorem natRepr_digits (n : Nat) : ∀ c ∈ natRepr n, isDigitC c = true :=
  fun c hc => natReprAux_digits (n + 1) n c hc

theorem natRepr_ne_nil (n : Nat) : natRepr n ≠ [] := by
  unfold natRepr
  rw [natReprAux]
  by_cases h10 : n < 10
  · rw [if_pos h10]; simp
  · rw [if_neg h10]; simp

theorem natRepr_isEmpty (n : Nat) : (natRepr n).isEmpty = false := by
  cases hcase : natRepr n with
  | nil => exact absurd hcase (natRepr_ne_nil n)
  | cons c t => rfl

theorem span_digits_append (l1 l2 : List Char)
    (h1 : ∀ c ∈ l1, isDigitC c = true)
    (h2 : ∀ c l', l2 = c :: l' → isDigitC c = false) :
    (l1 ++ l2).takeWhile isDigitC = l1 ∧ (l1 ++ l2).dropWhile isDigitC = l2 := by
  induction l1 with
  | nil =>
    simp only [List.nil_append]
    cases l2 with
    | nil => exact ⟨rfl, rfl⟩
    | cons c t =>
      have hc := h2 c t rfl
      simp [List.takeWhile_cons, List.dropWhile_cons, hc]
  | cons a l1 ih =>
    have ha := h1 a (List.mem_cons_self _ _)
    have ih' := ih fun c hc => h1 c (List.mem_cons_of_mem _ hc)
    simp [List.takeWhile_cons, List.dropWhile_cons, ha, ih'.1, ih'.2]

/-- Any string of the form `<digits>k-<digits>k` built from decimal
renderings of naturals has the specification's shape. -/
theorem isIntK_intK (a b : Nat) :
    isIntK (natRepr a ++ ('k' :: '-' :: (natRepr b ++ ['k']))) = true := by
  obtain ⟨hta, hda⟩ := span_digits_append (natRepr a) ('k' :: '-' :: (natRepr b ++ ['k']))
    (natRepr_digits a)
    (fun c l' he => by
      injection he with he1 he2
      subst he1
      decide)
  obtain ⟨htb, hdb⟩ := span_digits_append (natRepr b) ['k']
    (natRepr_digits b)
    (fun c l' he => by
      injection he with he1 he2
      subst he1
      decide)
  unfold isIntK
  simp only [hda]
  rw [hta, htb, hdb]
  simp [natRepr_isEmpty]

/-! ## Claim C1 -/

/-- Claim C1: the experience filter implements exactly the overlap rules of
the spec — for every record list and every experience query parsed to
`(reqMin, reqMax)`, a record with no parsable experience is included; if
`reqMax` is absent the record is included iff its `jobMax` is absent or
`jobMax ≥ reqMin`; if `reqMax` is present but `jobMax` absent, included iff
`reqMax ≥ jobMin`; when both are bounded, included iff `jobMin ≤ reqMax`
and `jobMax ≥ reqMin`. -/
theorem C1_experience_filter_matches_spec (jobs : List JobPosting) (e : String)
    (reqMin : Nat) (reqMax : Option Nat)
    (h : parse_experience_years (some e) = some (reqMin, reqMax)) :
    filter_jobs jobs none none (some e) =
      jobs.filter
        (fun j => specExpInclude reqMin reqMax (parse_experience_years j.experience)) := by
  have he : ¬ e = "" := by
    intro h0
    rw [h0] at h
    simp [parse_experience_years] at h
  have hbe : (e == "") = false := beq_eq_false_iff_ne.mpr he
  simp only [filter_jobs, pyTruthy, hbe, Bool.not_false, if_true, h]
  apply List.filter_congr
  intro j _
  unfold expPred specExpInclude
  cases parse_experience_years j.experience with
  | none => rfl
  | some p =>
    obtain ⟨jmin, jmax⟩ := p
    cases reqMax <;> cases jmax <;> rfl

/-- Witness for C1: the query `"3-5"` parses to `(3, 5)` and the filter
keeps the overlapping `"1-4 years"` job and the unspecified-experience job
while dropping `"6-8 years"`. -/
theorem C1_witness :
    filter_jobs [demoJob1, demoJob2, demoJob3] none none (some "3-5") =
      List.filter
        (fun j => specExpInclude 3 (some 5) (parse_experience_years j.experience))
        [demoJob1, demoJob2, demoJob3] ∧
    filter_jobs [demoJob1, demoJob2, demoJob3] none none (some "3-5") =
      [demoJob1, demoJob3] := by
  constructor
  · exact C1_experience_filter_matches_spec [demoJob1, demoJob2, demoJob3] "3-5" 3
      (some 5) (by decide)
  · decide

/-! ## Claim C2 -/

/-- Counterexample to claim C2 as stated: `extract_salary("2-3万")` does
not return `"20k-30k"` — it returns the absent value, because the `万`
pattern requires the unit character after the *first* number. -/
theorem C2_counterexample :
    extract_salary "2-3万" = none ∧ extract_salary "2-3万" ≠ some "20k-30k" := by
  constructor
  · decide
  · decide

/-- Claim C2 (amended): `extract_salary` tries the three notations in the
listed order with the first matching pattern winning; the ×10k notation
needs the unit after each number (`"2万-3万"` → `"20k-30k"`, while
`"2-3万"` yields the absent value); `"6000-9000元"` → `"6k-9k"`; and
`"no salary here"` yields the absent value. The last two conjuncts show
pattern priority on inputs where two patterns match. -/
theorem C2_salary_notations :
    extract_salary "2万-3万" = some "20k-30k" ∧
    extract_salary "6000-9000元" = some "6k-9k" ∧
    extract_salary "no salary here" = none ∧
    extract_salary "2万-3万 6000-9000元" = some "20k-30k" ∧
    extract_salary "20k-35k 6000-9000元" = some "20k-35k" := by
  refine ⟨by decide, by decide, by decide, by decide, by decide⟩

/-! ## Claim C3 -/

/-- Counterexample to claim C3 as stated: the k-notation branch of
`extract_salary` copies the captured numeric strings verbatim, so a
decimal bound survives and the produced value does not have the
`"<int>k-<int>k"` shape. -/
theorem C3_counterexample :
    extract_salary "20.5k-30k" = some "20.5k-30k" ∧
    isIntK ("20.5k-30k" : String).toList = false := by
  constructor
  · decide
  · decide

/-- Claim C3 (amended): every salary value produced by `extract_salary`
has the `"<int>k-<int>k"` shape unless it came from the k-notation branch
(which copies the captured strings verbatim and may carry decimal
bounds); both branches of the Zhaopin normalizer always produce the
`"<int>k-<int>k"` shape. -/
theorem C3_salary_shape :
    (∀ text r, extract_salary text = some r →
      isIntK r.toList = true ∨
        ∃ m, searchK text.toList = some m ∧ r = String.mk (kOut m)) ∧
    (∀ s m, searchWan s.toList = some m →
      isIntK (normalize_salary s).toList = true) ∧
    (∀ s m, searchWan s.toList = none → searchYuan s.toList = some m →
      isIntK (normalize_salary s).toList = true) := by
  refine ⟨?_, ?_, ?_⟩
  · intro text r h
    unfold extract_salary at h
    by_cases h0 : text = ""
    · rw [if_pos h0] at h
      exact absurd h (by simp)
    · rw [if_neg h0] at h
      cases hc : searchChinese text.toList with
      | some m =>
        rw [hc] at h
        left
        have hr : r = String.mk (chineseOut m) := by
          injection h with h'
          exact h'.symm
        subst hr
        exact isIntK_intK _ _
      | none =>
        rw [hc] at h
        cases hk : searchK text.toList with
        | some m =>
          rw [hk] at h
          right
          refine ⟨m, rfl, ?_⟩
          injection h with h'
          exact h'.symm
        | none =>
          rw [hk] at h
          cases hn : searchNumber text.toList with
          | some m =>
            rw [hn] at h
            left
            have hr : r = String.mk (numberOut m) := by
              injection h with h'
              exact h'.symm
            subst hr
            exact isIntK_intK _ _
          | none =>
            rw [hn] at h
            exact absurd h (by simp)
  · intro s m h
    unfold normalize_salary
    rw [h]
    exact isIntK_intK _ _
  · intro s m h1 h2
    unfold normalize_salary
    rw [h1, h2]
    exact isIntK_intK _ _

/-- Witness for C3: concrete inputs through each hypothesis of
`C3_salary_shape` — the plain-number branch output for
`"6000-9000元"`, the `万` branch and the `元` branch of the Zhaopin
normalizer. -/
theorem C3_witness :
    (isIntK ("6k-9k" : String).toList = true ∨
      ∃ m, searchK ("6000-9000元" : String).toList = some m ∧
        ("6k-9k" : String) = String.mk (kOut m)) ∧
    isIntK (normalize_salary "1.5-3万").toList = true ∧
    isIntK (normalize_salary "6000-9000元").toList = true := by
  refine ⟨C3_salary_shape.1 "6000-9000元" "6k-9k" (by decide),
    C3_salary_shape.2.1 "1.5-3万" ((['1'], ['5']), (['3'], [])) (by decide),
    C3_salary_shape.2.2 "6000-9000元" (6000, 9000) (by decide) (by decide)⟩

/-! ## Claim C4 -/

theorem addTag_nodup (acc : List String) (n : String) (h : acc.Nodup) :
    (addTag acc n).Nodup := by
  unfold addTag
  by_cases hm : n ∈ acc
  · rw [if_pos hm]; exact h
  · rw [if_neg hm]
    rw [List.nodup_append]
    exact ⟨h, List.nodup_singleton n, by simpa using hm⟩

theorem addTag_mem (acc : List String) (n x : String) (h : x ∈ addTag acc n) :
    x ∈ acc ∨ x = n := by
  unfold addTag at h
  by_cases hm : n ∈ acc
  · rw [if_pos hm] at h; exact Or.inl h
  · rw [if_neg hm] at h
    rcases List.mem_append.mp h with h1 | h1
    · exact Or.inl h1
    · exact Or.inr (List.mem_singleton.mp h1)

theorem extractTagsLoop_spec (tl : List Char) :
    ∀ (kws acc : List String), acc.Nodup →
      (extractTagsLoop tl kws acc).Nodup ∧
      ∀ x ∈ extractTagsLoop tl kws acc,
        x ∈ acc ∨ ∃ k ∈ kws, x = normalizeTag k := by
  intro kws
  induction kws with
  | nil =>
    intro acc h
    exact ⟨h, fun x hx => Or.inl hx⟩
  | cons kw rest ih =>
    intro acc h
    rw [extractTagsLoop]
    by_cases hc : containsSub (kw.toList.map lowerChar) tl = true
    · rw [if_pos hc]
      obtain ⟨h1, h2⟩ := ih (addTag acc (normalizeTag kw)) (addTag_nodup _ _ h)
      refine ⟨h1, fun x hx => ?_⟩
      rcases h2 x hx with hx' | ⟨k, hk, hkx⟩
      · rcases addTag_mem _ _ _ hx' with h3 | h3
        · exact Or.inl h3
        · exact Or.inr ⟨kw, List.mem_cons_self _ _, h3⟩
      · exact Or.inr ⟨k, List.mem_cons_of_mem _ hk, hkx⟩
    · rw [if_neg hc]
      obtain ⟨h1, h2⟩ := ih acc h
      refine ⟨h1, fun x hx => ?_⟩
      rcases h2 x hx with hx' | ⟨k, hk, hkx⟩
      · exact Or.inl hx'
      · exact Or.inr ⟨k, List.mem_cons_of_mem _ hk, hkx⟩

theorem extract_tags_nodup_mem (text : String) :
    (extract_tags text).Nodup ∧ ∀ x ∈ extract_tags text, x ∈ normTags := by
  unfold extract_tags
  by_cases h0 : text = ""
  · rw [if_pos h0]
    exact ⟨List.nodup_nil, fun x hx => absurd hx (List.not_mem_nil x)⟩
  · rw [if_neg h0]
    obtain ⟨h1, h2⟩ :=
      extractTagsLoop_spec (text.toList.map lowerChar) tech_keywords [] List.nodup_nil
    refine ⟨h1, fun x hx => ?_⟩
    rcases h2 x hx with hx' | ⟨k, hk, hkx⟩
    · exact absurd hx' (List.not_mem_nil x)
    · exact hkx ▸ List.mem_map_of_mem normalizeTag hk

set_option maxHeartbeats 1000000 in
/-- No two distinct canonicalised keywords collide case-insensitively
(checked over the whole fixed vocabulary). -/
theorem normTags_ci_inj :
    ∀ a ∈ normTags, ∀ b ∈ normTags, lowerString a = lowerString b → a = b := by
  decide

theorem nodup_ciNodup :
    ∀ l : List String, l.Nodup → (∀ x ∈ l, x ∈ normTags) → ciNodup l = true := by
  intro l
  induction l with
  | nil => intro _ _; rfl
  | cons a t ih =>
    intro hnd hmem
    rw [List.nodup_cons] at hnd
    rw [ciNodup, Bool.and_eq_true, List.all_eq_true]
    constructor
    · intro b hb
      have hab : a ≠ b := fun he => hnd.1 (he ▸ hb)
      have hl : lowerString a ≠ lowerString b := fun he =>
        hab (normTags_ci_inj a (hmem a (List.mem_cons_self _ _)) b
          (hmem b (List.mem_cons_of_mem _ hb)) he)
      exact bne_iff_ne.mpr hl
    · exact ih hnd.2 fun x hx => hmem x (List.mem_cons_of_mem _ hx)

/-- Counterexample to claim C4 as stated: the Zhaopin parser's secondary
skill-tag pass matches case-insensitively but deduplicates
case-sensitively, so the block `"python"` produces the tags
`["Python", "python"]` — a case-insensitive duplicate. -/
theorem C4_counterexample :
    zhaopin_block_tags "python" = ["Python", "python"] ∧
    ciNodup (zhaopin_block_tags "python") = false := by
  constructor
  · decide
  · decide

/-- Claim C4 (amended): tags produced by `extract_tags` — and hence every
LinkedIn record's tag list — contain no case-insensitive duplicates; the
Zhaopin parser's extra skill-tag pass can violate this
(`C4_counterexample`). -/
theorem C4_tags_ci_nodup :
    ∀ (text : String) (n : Nat) (title block : String),
      ciNodup ((extract_tags text).take n) = true ∧
      ciNodup (linkedin_block_tags title block) = true := by
  intro text n title block
  have key : ∀ (s : String) (m : Nat), ciNodup ((extract_tags s).take m) = true := by
    intro s m
    obtain ⟨h1, h2⟩ := extract_tags_nodup_mem s
    exact nodup_ciNodup _ (h1.sublist (List.take_sublist m _))
      fun x hx => h2 x ((List.take_sublist m _).subset hx)
  exact ⟨key text n, key (title ++ " " ++ block) 10⟩

/-! ## Claim C5 -/

/-- Counterexample to claim C5 as stated: a LinkedIn page of exactly 10
records sets `has_more = true`, although 10 is below every threshold in
the claimed 15-25 range. -/
theorem C5_counterexample :
    (linkedin_search 1 "China" true (.ok tenJobs)).has_more = true ∧
    (linkedin_search 1 "China" true (.ok tenJobs)).jobs.length < 15 := by
  constructor
  · decide
  · decide

/-- Claim C5 (amended): each parser sets `hasMore` exactly when the
returned record count reaches its fixed threshold, and on an error
outcome `hasMore` is false; Zhaopin's threshold is 15 (inside the spec's
15-25 range) but LinkedIn's is 10 (below it). -/
theorem C5_has_more_thresholds :
    ∀ (page : Nat) (jobs : List JobPosting) (msg loc : String) (fl : Bool),
      (zhaopin_search page (.ok jobs)).has_more =
        decide (15 ≤ (zhaopin_search page (.ok jobs)).jobs.length) ∧
      (zhaopin_search page (.error msg)).has_more = false ∧
      (linkedin_search page loc fl (.ok jobs)).has_more =
        decide (10 ≤ (linkedin_search page loc fl (.ok jobs)).jobs.length) ∧
      (linkedin_search page loc fl (.error msg)).has_more = false :=
  fun _ _ _ _ _ => ⟨rfl, rfl, rfl, rfl⟩

/-! ## Claim C6 -/

/-- Claim C6: a source parser's search never raises — the embedded
`search` is total; when the fetch-and-parse raises with message `msg`,
the outcome has an empty record list and `error = some msg`; on success
the error field is absent. -/
theorem C6_search_captures_errors :
    ∀ (page : Nat) (jobs : List JobPosting) (msg loc : String) (fl : Bool),
      (zhaopin_search page (.ok jobs)).error = none ∧
      (zhaopin_search page (.error msg)).jobs = [] ∧
      (zhaopin_search page (.error msg)).error = some msg ∧
      (linkedin_search page loc fl (.ok jobs)).error = none ∧
      (linkedin_search page loc fl (.error msg)).jobs = [] ∧
      (linkedin_search page loc fl (.error msg)).error = some msg :=
  fun _ _ _ _ _ => ⟨rfl, rfl, rfl, rfl, rfl, rfl⟩

/-! ## Claim C7 -/

theorem call_tool_from_transient (attemptResult : Nat → Except MCPError String)
    (maxRetries : Nat) (base : ℚ) (errF : Nat → MCPError)
    (hall : ∀ i, i ≤ maxRetries →
      attemptResult i = .error (errF i) ∧ isRetryable (errF i) = true) :
    ∀ (remaining attempt : Nat) (last : Option MCPError),
      attempt + remaining = maxRetries + 1 → 1 ≤ remaining →
      call_tool_from attemptResult maxRetries base remaining attempt last =
        ⟨.connectionFailure (some (errF maxRetries)),
         (List.range' attempt (maxRetries - attempt)).map fun a => base * 2 ^ a⟩ := by
  intro remaining
  induction remaining with
  | zero => intro attempt last _ h1; exact absurd h1 (by omega)
  | succ r ih =>
    intro attempt last hsum _
    have hle : attempt ≤ maxRetries := by omega
    obtain ⟨herr, hret⟩ := hall attempt hle
    rw [call_tool_from]
    simp only [herr, hret, if_true]
    rcases Nat.eq_or_lt_of_le hle with heq | hlt
    · subst heq
      have hr0 : r = 0 := by omega
      subst hr0
      rw [if_neg (lt_irrefl attempt)]
      simp [call_tool_from, Nat.sub_self]
    · have hr1 : 1 ≤ r := by omega
      rw [ih (attempt + 1) (some (errF attempt)) (by omega) hr1]
      rw [if_pos hlt]
      have hrange : maxRetries - attempt = (maxRetries - (attempt + 1)) + 1 := by omega
      rw [hrange, List.range'_succ]
      rfl

theorem call_tool_from_terminal (attemptResult : Nat → Except MCPError String)
    (maxRetries : Nat) (base : ℚ) (e : MCPError) (k : Nat)
    (hk : k ≤ maxRetries)
    (he : attemptResult k = .error e) (hterm : isRetryable e = false)
    (hbefore : ∀ i, i < k → ∃ e', attemptResult i = .error e' ∧ isRetryable e' = true) :
    ∀ (remaining attempt : Nat) (last : Option MCPError),
      attempt + remaining = maxRetries + 1 → attempt ≤ k →
      call_tool_from attemptResult maxRetries base remaining attempt last =
        ⟨.raised e, (List.range' attempt (k - attempt)).map fun a => base * 2 ^ a⟩ := by
  intro remaining
  induction remaining with
  | zero => intro attempt last hsum hak; exact absurd hsum (by omega)
  | succ r ih =>
    intro attempt last hsum hak
    rcases Nat.eq_or_lt_of_le hak with heq | hlt
    · subst heq
      rw [call_tool_from]
      simp [he, hterm, Nat.sub_self]
    · obtain ⟨e', he', hret⟩ := hbefore attempt hlt
      rw [call_tool_from]
      simp only [he', hret, if_true]
      rw [ih (attempt + 1) (some e') (by omega) (by omega)]
      rw [if_pos (by omega : attempt < maxRetries)]
      have hrange : k - attempt = (k - (attempt + 1)) + 1 := by omega
      rw [hrange, List.range'_succ]
      rfl

/-- Claim C7: `_call_tool` classifies failures as transient (timeout,
connection reset, or a message containing a transport keyword) or
terminal; transient failures are retried through all `max_retries + 1`
attempts with backoff delay `base * 2 ^ attempt` slept between attempts,
and exhaustion raises `MCPConnectionError` carrying the last underlying
error; a terminal failure at any attempt is raised immediately, with no
further attempts and no further sleeps. -/
theorem C7_call_tool_retry_policy :
    (∀ (attemptResult : Nat → Except MCPError String) (errF : Nat → MCPError)
        (maxRetries : Nat) (base : ℚ),
      (∀ i, i ≤ maxRetries →
        attemptResult i = .error (errF i) ∧ isRetryable (errF i) = true) →
      call_tool attemptResult maxRetries base =
        ⟨.connectionFailure (some (errF maxRetries)),
         (List.range maxRetries).map fun a => base * 2 ^ a⟩) ∧
    (∀ (attemptResult : Nat → Except MCPError String) (maxRetries : Nat)
        (base : ℚ) (e : MCPError) (k : Nat),
      k ≤ maxRetries →
      (∀ i, i < k → ∃ e', attemptResult i = .error e' ∧ isRetryable e' = true) →
      attemptResult k = .error e → isRetryable e = false →
      call_tool attemptResult maxRetries base =
        ⟨.raised e, (List.range k).map fun a => base * 2 ^ a⟩) := by
  constructor
  · intro attemptResult errF maxRetries base hall
    unfold call_tool
    rw [call_tool_from_transient attemptResult maxRetries base errF hall
      (maxRetries + 1) 0 none (by omega) (by omega)]
    rw [List.range_eq_range']
    simp
  · intro attemptResult maxRetries base e k hk hbefore he hterm
    unfold call_tool
    rw [call_tool_from_terminal attemptResult maxRetries base e k hk he hterm hbefore
      (maxRetries + 1) 0 none (by omega) (by omega)]
    rw [List.range_eq_range']
    simp

/-- Witness for C7: with `max_retries = 2` and `base_delay = 1`, three
timeouts exhaust the retries with sleeps `[1, 2]` and raise the
connection-failure error carrying the last timeout; a connection reset
followed by a non-transport error sleeps once and then raises the
terminal error immediately. -/
theorem C7_witness :
    call_tool allTimeout 2 1 =
      ⟨.connectionFailure (some (.timeoutError "t")), [1, 2]⟩ ∧
    call_tool terminalSecond 2 1 = ⟨.raised (.otherError "bad request"), [1]⟩ := by
  constructor
  · have h := C7_call_tool_retry_policy.1 allTimeout (fun _ => .timeoutError "t") 2 1
      (fun i _ => ⟨rfl, rfl⟩)
    rw [h]
    norm_num [List.range_succ]
  · have h := C7_call_tool_retry_policy.2 terminalSecond 2 1 (.otherError "bad request") 1
      (by omega)
      (fun i hi => ⟨.connectionError "reset", by interval_cases i; exact ⟨rfl, rfl⟩⟩)
      rfl (by decide)
    rw [h]
    norm_num [List.range_succ]

/-! ## Claim C8 -/

/-- Claim C8: `increment_request_count` is additive and returns the new
total — for every starting row (absent meaning 0) and every amount, one
upsert leaves the month's count at `c + n` and returns it; and `N + 1`
successive increments of 1 from an absent row store exactly `N + 1`. -/
theorem C8_increment_quota_additive :
    ∀ (row : Option Nat) (n N : Nat),
      increment_request_count row n = (some (row.getD 0 + n), row.getD 0 + n) ∧
      incrIter (N + 1) = some (N + 1) := by
  intro row n N
  constructor
  · cases row <;> simp [increment_request_count]
  · induction N with
    | zero => rfl
    | succ t ih =>
      rw [incrIter, ih]
      rfl

/-! ## Claim C9 -/

/-- Counterexample to claim C9 as stated: with a marker 7200 seconds old
and a threshold of 0 hours, the elapsed time exceeds the threshold, yet
`is_cache_stale` returns false — Python's `hours or default` treats the
zero threshold as unset and compares against the 24-hour default
instead. -/
theorem C9_counterexample :
    is_cache_stale (set_last_refresh empty_store "zhaopin" 0) "zhaopin" 7200
      (some 0) 24 = false ∧
    (0 : ℚ) * 3600 < 7200 - 0 := by
  constructor
  · unfold is_cache_stale get_last_refresh set_last_refresh metadata_set
    rw [if_pos rfl]
    norm_num
  · norm_num

/-- Claim C9 (amended): for every positive threshold, `is_cache_stale` is
true exactly when no marker exists or the elapsed time exceeds the
threshold — in particular it is true on a fresh store, false immediately
after `set_last_refresh`, and true again once the threshold has elapsed;
a zero (or absent) threshold falls back to the configured default hours. -/
theorem C9_is_stale_spec :
    ∀ (store : String → Option ℚ) (src : String) (now t h d : ℚ), 0 < h →
      is_cache_stale empty_store src now (some h) d = true ∧
      is_cache_stale (set_last_refresh store src now) src now (some h) d = false ∧
      (is_cache_stale (set_last_refresh store src t) src now (some h) d = true ↔
        h * 3600 < now - t) := by
  intro store src now t h d hh
  have hh0 : ¬ h = 0 := ne_of_gt hh
  have hget : ∀ x : ℚ, get_last_refresh (set_last_refresh store src x) src = some x := by
    intro x
    unfold get_last_refresh set_last_refresh metadata_set
    rw [if_pos rfl]
  refine ⟨rfl, ?_, ?_⟩
  · unfold is_cache_stale
    rw [hget now]
    simp only [hh0, if_false]
    rw [decide_eq_false_iff_not]
    rw [sub_self]
    rw [not_lt]
    positivity
  · unfold is_cache_stale
    rw [hget t]
    simp only [hh0, if_false]
    exact decide_eq_true_iff

/-- Witness for C9: with a 24-hour threshold, a fresh store is stale, a
store refreshed at time 100000 is not stale at 100000, and the
staleness test at a later instant reduces to the elapsed-time
comparison. -/
theorem C9_witness :
    is_cache_stale empty_store "zhaopin" 100000 (some 24) 24 = true ∧
    is_cache_stale (set_last_refresh empty_store "zhaopin" 100000) "zhaopin" 100000
      (some 24) 24 = false ∧
    (is_cache_stale (set_last_refresh empty_store "zhaopin" 0) "zhaopin" 100000
      (some 24) 24 = true ↔ (24 : ℚ) * 3600 < 100000 - 0) :=
  C9_is_stale_spec empty_store "zhaopin" 100000 0 24 24 (by norm_num)

/-! ## Claim C10 -/

theorem mem_insertDesc {x r : JobRow} :
    ∀ {l : List JobRow}, x ∈ insertDesc r l → x = r ∨ x ∈ l := by
  intro l
  induction l with
  | nil =>
    intro h
    exact Or.inl (List.mem_singleton.mp h)
  | cons a t ih =>
    intro h
    rw [insertDesc] at h
    by_cases hc : descBefore r a = true
    · rw [if_pos hc] at h
      rcases List.mem_cons.mp h with h1 | h1
      · exact Or.inl h1
      · exact Or.inr h1
    · rw [if_neg hc] at h
      rcases List.mem_cons.mp h with h1 | h1
      · exact Or.inr (h1 ▸ List.mem_cons_self a t)
      · rcases ih h1 with h2 | h2
        · exact Or.inl h2
        · exact Or.inr (List.mem_cons_of_mem a h2)

theorem mem_sortDesc {x : JobRow} :
    ∀ {l : List JobRow}, x ∈ sortDesc l → x ∈ l := by
  intro l
  induction l with
  | nil => intro h; exact absurd h (List.not_mem_nil x)
  | cons a t ih =>
    intro h
    rw [sortDesc] at h
    rcases mem_insertDesc h with h1 | h1
    · exact h1 ▸ List.mem_cons_self a t
    · exact List.mem_cons_of_mem a (ih h1)

theorem get_jobs_mem_active {db : List JobRow} {source : Option String}
    {limit offset : Nat} {j : JobRow} (h : j ∈ get_jobs db source limit offset) :
    j.is_active = 1 := by
  unfold get_jobs at h
  have hs : j ∈ sortDesc (if pyTruthy source then
      db.filter fun r => sourceEq (source.getD "") r && r.is_active == 1
    else db.filter fun r => r.is_active == 1) := by
    have h1 := (List.take_sublist _ _).subset h
    exact (List.drop_sublist _ _).subset h1
  by_cases hp : pyTruthy source = true
  · rw [if_pos hp] at hs
    have := (List.mem_filter.mp (mem_sortDesc hs)).2
    rcases Bool.and_eq_true_iff.mp this with ⟨_, h2⟩
    exact beq_iff_eq.mp h2
  · rw [if_neg hp] at hs
    exact beq_iff_eq.mp (List.mem_filter.mp (mem_sortDesc hs)).2

theorem search_jobs_mem_active {db : List JobRow} {q : String}
    {source : Option String} {limit : Nat} {j : JobRow}
    (h : j ∈ search_jobs db q source limit) : j.is_active = 1 := by
  unfold search_jobs at h
  have hs := mem_sortDesc ((List.take_sublist _ _).subset h)
  by_cases hp : pyTruthy source = true
  · rw [if_pos hp] at hs
    have := (List.mem_filter.mp hs).2
    rcases Bool.and_eq_true_iff.mp this with ⟨h1, _⟩
    rcases Bool.and_eq_true_iff.mp h1 with ⟨h2, _⟩
    exact beq_iff_eq.mp h2
  · rw [if_neg hp] at hs
    have := (List.mem_filter.mp hs).2
    rcases Bool.and_eq_true_iff.mp this with ⟨h2, _⟩
    exact beq_iff_eq.mp h2

/-- Claim C10 (implicit): every read operation of the store silently
restricts to active records — `get_jobs`, `search_jobs` and
`get_job_count` only return or count rows with `is_active = 1`, so a row
stored with any other `is_active` value is invisible to all three. -/
theorem C10_reads_restrict_to_active :
    ∀ (db : List JobRow) (source : Option String) (limit offset : Nat)
      (q : String) (j : JobRow),
      (j ∈ get_jobs db source limit offset → j.is_active = 1) ∧
      (j ∈ search_jobs db q source limit → j.is_active = 1) ∧
      get_job_count db source =
        (db.filter fun r => rowMatchesSourcePy source r && r.is_active == 1).length ∧
      (j.is_active ≠ 1 →
        j ∉ get_jobs db source limit offset ∧ j ∉ search_jobs db q source limit) := by
  intro db source limit offset q j
  refine ⟨fun h => get_jobs_mem_active h, fun h => search_jobs_mem_active h, ?_, ?_⟩
  · unfold get_job_count rowMatchesSourcePy
    by_cases hp : pyTruthy source = true
    · rw [if_pos hp]
      apply congrArg List.length
      apply List.filter_congr
      intro r _
      rw [if_pos hp]
    · rw [if_neg hp]
      apply congrArg List.length
      apply List.filter_congr
      intro r _
      rw [if_neg hp]
      rw [Bool.true_and]
  · intro hne
    exact ⟨fun h => hne (get_jobs_mem_active h),
      fun h => hne (search_jobs_mem_active h)⟩

/-- Witness for C10: in a two-row store holding one active and one
inactive row, the active row is returned by `get_jobs` (discharging the
membership hypothesis) and the inactive row is invisible to `get_jobs`
and `search_jobs`. -/
theorem C10_witness :
    activeRow.is_active = 1 ∧
    inactiveRow ∉ get_jobs demoDb none 100 0 ∧
    inactiveRow ∉ search_jobs demoDb "engineer" none 50 := by
  refine ⟨(C10_reads_restrict_to_active demoDb none 100 0 "engineer" activeRow).1
    (by decide), ?_, ?_⟩
  · exact ((C10_reads_restrict_to_active demoDb none 100 0 "engineer" inactiveRow).2.2.2
      (by decide)).1
  · exact ((C10_reads_restrict_to_active demoDb none 100 0 "engineer" inactiveRow).2.2.2
      (by decide)).2

end JobsCli





